import Mathlib

/-!
Verification of the spreadsheet extraction engine of the dashboard
(`app.py` and `utils.py`): a shallow embedding of the cell grid, the
PT-BR text/number normalisers, the section locators and the section
extractors, together with theorems about the behaviour the
specification describes.

Cells read by `pd.read_csv(..., header=None)` are modelled as
`Option String`: `none` is a missing value (NaN) and `some s` a text
cell; `str()` of a NaN cell is the string `"nan"`, exactly as in
pandas.  Python string primitives are modelled on `List Char`:
`str.replace` with a single-character pattern and empty replacement is
a filter, with a single-character pattern and single-character
replacement a map, and the two-character pattern `"R$"` is removed by
a left-to-right scan.  `float(...)` / `pd.to_numeric(..., errors="coerce")`
are modelled by a numeric-literal parser into `ℚ` covering the decimal
and exponent (`e`/`E`) forms; the specials `inf`/`nan`, digit-group
underscores and float overflow/rounding are not exercised by the code's
inputs and are treated as unparsable/exact.  `pd.to_datetime(..., errors="coerce",
dayfirst=True)` is time-of-day dependent for year-less inputs, so the
extractors are parameterised over the date parser `dp`; a failed parse
is NaT (`Value.null`) for every `dp`, which is all the claims use.
-/

namespace Dash

/-- A raw cell: `none` models NaN (a missing value), `some s` a text cell. -/
abbrev Cell := Option String

/-- An untyped grid as read with `header=None`; possibly ragged rows are
padded with NaN to the maximal width by pandas, which `rowAt`/`sliceRows`
reproduce. -/
abbrev Grid := List (List Cell)

/-- Python `str(x)` on a cell: a NaN cell renders as `"nan"`. -/
def strCell : Cell → String
  | none => "nan"
  | some s => s

/-- Python `str.strip()` on the character list: drop whitespace at both ends. -/
def trimL (l : List Char) : List Char :=
  ((l.dropWhile Char.isWhitespace).reverse.dropWhile Char.isWhitespace).reverse

/-- Python `str.strip()`. -/
def pyStrip (s : String) : String := ⟨trimL s.data⟩

/-- Python `str.lower()` on one character, covering ASCII and the accented
Latin letters the spreadsheet uses (e.g. `'Ã'` lowers to `'ã'`, so
`"PROFISSÃO".lower()` is `"profissão"` as in Python). -/
def pyLowerChar (c : Char) : Char :=
  if c.toNat < 128 then c.toLower
  else
    match c with
    | 'Á' => 'á' | 'À' => 'à' | 'Â' => 'â' | 'Ã' => 'ã' | 'Ä' => 'ä'
    | 'É' => 'é' | 'È' => 'è' | 'Ê' => 'ê' | 'Ë' => 'ë'
    | 'Í' => 'í' | 'Ì' => 'ì' | 'Î' => 'î' | 'Ï' => 'ï'
    | 'Ó' => 'ó' | 'Ò' => 'ò' | 'Ô' => 'ô' | 'Õ' => 'õ' | 'Ö' => 'ö'
    | 'Ú' => 'ú' | 'Ù' => 'ù' | 'Û' => 'û' | 'Ü' => 'ü'
    | 'Ç' => 'ç' | 'Ñ' => 'ñ'
    | c => c

/-- Python `str.lower()`. -/
def pyLower (s : String) : String := ⟨s.data.map pyLowerChar⟩

/-- Python `str.startswith(pre)`. -/
def pyStartsWith (s pre : String) : Bool := pre.data.isPrefixOf s.data

/-- Substring containment on character lists: the pattern occurs as a
contiguous run. -/
def isInfixL (pat : List Char) : List Char → Bool
  | [] => pat.isEmpty
  | c :: rest => pat.isPrefixOf (c :: rest) || isInfixL pat rest

/-- Python `needle in s` (substring containment). -/
def pyContains (s needle : String) : Bool := isInfixL needle.data s.data

/-- Python `str.replace(a, "")` with a single-character pattern: deletes
every occurrence, i.e. filters the character out. -/
def delAll (a : Char) (s : String) : String := ⟨s.data.filter (fun c => c ≠ a)⟩

/-- Python `str.replace(a, b)` with single-character pattern and
replacement: maps every occurrence. -/
def chMap (a b : Char) (s : String) : String :=
  ⟨s.data.map (fun c => if c = a then b else c)⟩

/-- Python `str.replace("R$", "")`: left-to-right removal of every
non-overlapping occurrence of the two-character pattern. -/
def rmRSL : List Char → List Char
  | [] => []
  | 'R' :: '$' :: rest => rmRSL rest
  | c :: rest => c :: rmRSL rest

/-- String wrapper for `rmRSL`. -/
def rmRS (s : String) : String := ⟨rmRSL s.data⟩

/-- Python `unicodedata.normalize('NFD', s).encode('ascii','ignore')`, restricted to
the Latin letters the spreadsheet uses: an accented letter decomposes into
its base letter plus a combining mark that the ASCII encode drops; any
other non-ASCII character is dropped entirely. -/
def deaccentChar (c : Char) : List Char :=
  if c.toNat < 128 then [c]
  else if c ∈ ['á', 'à', 'â', 'ã', 'ä'] then ['a']
  else if c ∈ ['Á', 'À', 'Â', 'Ã', 'Ä'] then ['A']
  else if c ∈ ['é', 'è', 'ê', 'ë'] then ['e']
  else if c ∈ ['É', 'È', 'Ê', 'Ë'] then ['E']
  else if c ∈ ['í', 'ì', 'î', 'ï'] then ['i']
  else if c ∈ ['Í', 'Ì', 'Î', 'Ï'] then ['I']
  else if c ∈ ['ó', 'ò', 'ô', 'õ', 'ö'] then ['o']
  else if c ∈ ['Ó', 'Ò', 'Ô', 'Õ', 'Ö'] then ['O']
  else if c ∈ ['ú', 'ù', 'û', 'ü'] then ['u']
  else if c ∈ ['Ú', 'Ù', 'Û', 'Ü'] then ['U']
  else if c = 'ç' then ['c']
  else if c = 'Ç' then ['C']
  else if c = 'ñ' then ['n']
  else if c = 'Ñ' then ['N']
  else []

/-- Model of `_strip_accents_lower` from app.py: NFD-normalise and drop non-ASCII,
then strip and lowercase. -/
def stripAccentsLower (s : String) : String :=
  pyLower ⟨trimL (s.data.flatMap deaccentChar)⟩

/-- Decimal value of a digit list, most significant first (also the decode
function used to prove the decimal rendering injective). -/
def digitsVal (l : List Char) : Nat :=
  l.foldl (fun a c => 10 * a + (c.toNat - 48)) 0

/-- Mantissa of a float literal: an integer part and an optional
fractional part separated by one dot, at least one digit in total; the
value `intpart.fracpart` is `M / 10^k`, returned as the pair `(M, k)`. -/
def parseMantissa (mant : List Char) : Option (Nat × Nat) :=
  let ip := mant.takeWhile (fun c => c ≠ '.')
  let rest := mant.dropWhile (fun c => c ≠ '.')
  match rest with
  | [] =>
    if ip.all Char.isDigit ∧ ip ≠ [] then some (digitsVal ip, 0) else none
  | _ :: fp =>
    if ip.all Char.isDigit ∧ fp.all Char.isDigit ∧ '.' ∉ fp ∧ (ip ≠ [] ∨ fp ≠ []) then
      some (digitsVal ip * 10 ^ fp.length + digitsVal fp, fp.length)
    else none

/-- Exponent suffix of a float literal (the part after `e`/`E`): an
optional sign and at least one digit; returns (negative?, magnitude). -/
def parseExpPart (ex : List Char) : Option (Bool × Nat) :=
  match ex with
  | '-' :: r => if r.all Char.isDigit ∧ r ≠ [] then some (true, digitsVal r) else none
  | '+' :: r => if r.all Char.isDigit ∧ r ≠ [] then some (false, digitsVal r) else none
  | r => if r.all Char.isDigit ∧ r ≠ [] then some (false, digitsVal r) else none

/-- Unsigned float-literal body: a mantissa, optionally followed by an
`e`/`E` exponent; the value `M/10^k · 10^±x` is built as one `mkRat`. -/
def parseDecBody (body : List Char) : Option ℚ :=
  let mant := body.takeWhile (fun c => c ≠ 'e' ∧ c ≠ 'E')
  let rest := body.dropWhile (fun c => c ≠ 'e' ∧ c ≠ 'E')
  match rest with
  | [] => (parseMantissa mant).map (fun p => mkRat p.1 (10 ^ p.2))
  | _ :: ex =>
    match parseMantissa mant, parseExpPart ex with
    | some p, some e =>
      some (if e.1 then mkRat p.1 (10 ^ (p.2 + e.2))
            else mkRat (p.1 * 10 ^ e.2) (10 ^ p.2))
    | _, _ => none

/-- The numeric-literal fragment of Python `float(text)` (surrounding
whitespace tolerated, optional sign, digits with at most one dot, optional
`e`/`E` exponent), which is also how `pd.to_numeric(..., errors="coerce")`
reads the cleaned strings; unparsable text yields `none` as
`errors="coerce"` yields NaN.  Values are exact rationals, so binary
rounding and overflow to infinity are not modelled, nor are the specials
`inf`/`nan` (a bare `"nan"` is separately guarded in `_to_number_pt`) or
digit-group underscores — none of which the spreadsheet's cells use. -/
def parseDecimal (s : String) : Option ℚ :=
  match trimL s.data with
  | '-' :: r => (parseDecBody r).map Rat.neg
  | '+' :: r => parseDecBody r
  | r => parseDecBody r

/-- Pandas `pd.to_numeric(..., errors="coerce")` on an already-stringified value. -/
def toNumeric (s : String) : Option ℚ := parseDecimal s

/-- Model of `_to_number_pt` from app.py: `None`/empty/"nan" give `none` (a NaN cell
stringifies to `"nan"` and is also caught); otherwise strip `R$` and `%`,
delete `.` (thousands separator), turn `,` into `.`, strip, and convert
with `float`, `none` when unparsable. -/
def toNumberPt (c : Cell) : Option ℚ :=
  let txt := pyStrip (strCell c)
  if txt = "" ∨ pyLower txt = "nan" then none
  else parseDecimal (pyStrip (chMap ',' '.' (delAll '.' (delAll '%' (rmRS txt)))))

/-! ### Grid access -/

/-- Number of rows. -/
def nrows (g : Grid) : Nat := g.length

/-- Number of columns of the DataFrame: the maximal raw row width. -/
def ncols (g : Grid) : Nat := g.foldl (fun m r => max m r.length) 0

/-- Pandas `df.empty`: true when either axis has length zero. -/
def pdEmpty (g : Grid) : Bool := g.isEmpty || ncols g == 0

/-- Row `i` as pandas sees it: padded with NaN to the frame width. -/
def padRow (r : List Cell) (n : Nat) : List Cell :=
  (List.range n).map (fun j => r.getD j none)

/-- Row `i`, padded. -/
def rowAt (g : Grid) (i : Nat) : List Cell := padRow (g.getD i []) (ncols g)

/-- Pandas `df.iloc[i, j]` when `j` is in range. -/
def cellAt (g : Grid) (i j : Nat) : Cell := (g.getD i []).getD j none

/-- The `IndexError` sites of `extract_vendas_realizadas`. -/
inductive PdErr where
  /-- Raised by `sub.iloc[0]` on an empty slice. -/
  | ilocEmpty
  /-- Raised by `df_raw.iloc[end, 1]` on a one-column frame. -/
  | colOutOfRange
deriving DecidableEq

/-- Pandas `df.iloc[i, j]`, raising `IndexError` when column `j` does not exist. -/
def cellAtE (g : Grid) (i j : Nat) : Except PdErr Cell :=
  if j < ncols g then .ok (cellAt g i j) else .error .colOutOfRange

/-- Pandas `df[0]`: the first column as a series (shorter rows hold NaN there). -/
def col0 (g : Grid) : List Cell := g.map (fun r => r.getD 0 none)

/-- Pandas `df.iloc[a:b]` as padded rows (pandas clips out-of-range bounds). -/
def sliceRows (g : Grid) (a b : Nat) : List (List Cell) :=
  ((g.drop a).take (b - a)).map (fun r => padRow r (ncols g))

/-- Model of `_first_eq` from app.py: index of the first cell of the series whose
accent-stripped lowercase text equals that of `value`. -/
def firstEq (col : List Cell) (value : String) : Option Nat :=
  col.findIdx? (fun c => stripAccentsLower (strCell c) == stripAccentsLower value)

/-- Model of `_first_match_contains` from app.py: index of the first cell whose
normalised text contains the normalised needle as a substring. -/
def firstContains (col : List Cell) (needle : String) : Option Nat :=
  col.findIdx? (fun c => pyContains (stripAccentsLower (strCell c)) (stripAccentsLower needle))

/-! ### Mode Selector (`utils.py`) -/

/-- The accent-replacement table of `_slug_pt` (applied after lowering, so
only lowercase keys appear, exactly as in the source dict). -/
def slugRep (c : Char) : Char :=
  if c = 'ç' then 'c'
  else if c ∈ ['ã', 'á', 'à', 'â', 'ä'] then 'a'
  else if c ∈ ['é', 'ê', 'è', 'ë'] then 'e'
  else if c ∈ ['í', 'ì', 'ï'] then 'i'
  else if c ∈ ['ó', 'ô', 'õ', 'ò', 'ö'] then 'o'
  else if c ∈ ['ú', 'ù', 'ü'] then 'u'
  else c

/-- Model of `_slug_pt` from utils.py: strip, lowercase, replace the listed accented
letters, and turn spaces into underscores. -/
def slugPt (s : String) : String :=
  chMap ' ' '_' ⟨(pyLower (pyStrip s)).data.map slugRep⟩

/-- Table `COLUMN_ALIAS` from utils.py, verbatim (lookup keys are already-slugged
names, so the accented and trailing-space keys can never match). -/
def COLUMN_ALIAS : List (String × String) :=
  [("uf", "estado"), ("est", "estado"), ("regiao", "regiao"), ("região", "regiao"),
   ("canal_de_aquisicao", "canal"), ("profissão", "profissao"), ("profissao ", "profissao"),
   ("qtde_vendas", "vendas"), ("dt", "data"), ("ticket", "valor"), ("mes", "mes")]

/-- Model of `_normalize_columns` on one column name: slug it, then apply the alias
table (`COLUMN_ALIAS.get(key, key)`). -/
def normColName (c : String) : String :=
  let key := slugPt c
  ((COLUMN_ALIAS.find? (fun p => p.1 == key)).map Prod.snd).getD key

/-- The long-mode test of `load_inputs_dashboard` (utils.py): read the grid
with the first row as header, normalise the column names, and classify as
`"long"` exactly when all of `estado`, `canal`, `profissao` are present
together with `valor` or `vendas`; otherwise the loader continues with the
section-based `"blocks"` parser. -/
def modeOfHeader (hdr : List String) : String :=
  let cols := hdr.map normColName
  if ("estado" ∈ cols ∧ "canal" ∈ cols ∧ "profissao" ∈ cols) ∧
     ("valor" ∈ cols ∨ "vendas" ∈ cols) then "long" else "blocks"

/-- Modelled from the spec: the Mode Selector predicate as the specification
words it — the normalised column set contains at least one of the dimension
names `{estado, regiao, canal, profissao}` and at least one of the metric
names `{valor, vendas}`. -/
def specLongPredicate (hdr : List String) : Prop :=
  let cols := hdr.map normColName
  (∃ d ∈ ["estado", "regiao", "canal", "profissao"], d ∈ cols) ∧
  (∃ m ∈ ["valor", "vendas"], m ∈ cols)

instance (hdr : List String) : Decidable (specLongPredicate hdr) := by
  unfold specLongPredicate; infer_instance

/-! ### Column de-duplication (`_dedupe_columns`, app.py) -/

/-- Decimal digit to character. -/
def digitChar : Nat → Char
  | 0 => '0' | 1 => '1' | 2 => '2' | 3 => '3' | 4 => '4'
  | 5 => '5' | 6 => '6' | 7 => '7' | 8 => '8' | _ => '9'

/-- Decimal digits of `n`, most significant first; `fuel ≥ n` suffices. -/
def natDigitsGo (fuel : Nat) (n : Nat) : List Char :=
  match fuel with
  | 0 => []
  | fuel + 1 => if n = 0 then [] else natDigitsGo fuel (n / 10) ++ [digitChar (n % 10)]

/-- Python `str(n)` for the suffix counter `f"{base}_{k}"`. -/
def natToStr (n : Nat) : String :=
  if n = 0 then "0" else ⟨natDigitsGo (n + 1) n⟩

/-- The base name of a column in `_dedupe_columns`: `str(c).strip()`, with
blank or `"nan"` replaced by `"col"`. -/
def baseName (c : Cell) : String :=
  let b := pyStrip (strCell c)
  if b = "" ∨ pyLower b = "nan" then "col" else b

/-- The `while name in seen` loop of `_dedupe_columns`: try `base_k`,
`base_(k+1)`, … until a name not yet assigned appears.  The candidates are
pairwise distinct and `seen` is finite, so `seen.length + 1` attempts
provably suffice (`freshGo_not_mem`); the fuel-out branch is unreachable. -/
def freshGo (base : String) (seen : List String) : Nat → Nat → String
  | k, 0 => base ++ "_" ++ natToStr k
  | k, fuel + 1 =>
    let name := base ++ "_" ++ natToStr k
    if name ∈ seen then freshGo base seen (k + 1) fuel else name

/-- The name assigned to one column given the already-assigned names. -/
def assignName (seen : List String) (c : Cell) : String :=
  let b := baseName c
  if b ∈ seen then freshGo b seen 2 (seen.length + 1) else b

/-- The column loop of `_dedupe_columns`, `seen` accumulating every
assigned (final) name. -/
def dedupeGo (seen : List String) : List Cell → List String
  | [] => []
  | c :: rest =>
    let name := assignName seen c
    name :: dedupeGo (seen ++ [name]) rest

/-- Model of `_dedupe_columns` from app.py, as the produced list of column names. -/
def dedupeColumns (cols : List Cell) : List String := dedupeGo [] cols

/-! ### `extract_vendas_realizadas` (app.py) -/

/-- A typed cell after extraction. -/
inductive Value where
  /-- An untouched cell. -/
  | raw (c : Cell)
  /-- A numeric coercion result (failed parses filled with 0). -/
  | num (q : ℚ)
  /-- A `pd.to_datetime` success, as an abstract timestamp. -/
  | date (t : Nat)
  /-- NaT / NaN left by a failed coercion. -/
  | null
deriving DecidableEq

/-- An extracted section table: the header row (raw cells, as pandas column
labels) and the typed data rows. -/
structure VTable where
  header : List Cell
  rows : List (List Value)
deriving DecidableEq

/-- Pandas `pd.DataFrame()`, the empty-table fallback. -/
def VTable.empty : VTable := ⟨[], []⟩

deriving instance DecidableEq for Except

/-- The stop test of the `extract_vendas_realizadas` scan at row `i`: the
stripped first cell starts (case-insensitively) with `"total"`, or it is
`"nan"` and so is the adjacent cell — reading the adjacent cell raises
`IndexError` on a one-column frame. -/
def vendasStop (g : Grid) (i : Nat) : Except PdErr Bool :=
  let a := pyStrip (strCell (cellAt g i 0))
  if pyStartsWith (pyLower a) "total" then .ok true
  else if a = "nan" then
    match cellAtE g i 1 with
    | .error err => .error err
    | .ok c1 => .ok (pyStrip (strCell c1) == "nan")
  else .ok false

/-- The `while end < len(df_raw)` scan for the end of the vendas section;
called with `fuel = nrows g`, which makes the fuel bound vacuous.  An
`IndexError` from the stop test propagates. -/
def vendasEndGo (g : Grid) : Nat → Nat → Except PdErr Nat
  | e, 0 => .ok e
  | e, fuel + 1 =>
    if e < nrows g then
      match vendasStop g e with
      | .error err => .error err
      | .ok true => .ok e
      | .ok false => vendasEndGo g (e + 1) fuel
    else .ok e

/-- Pandas `pd.to_datetime(value, errors="coerce", dayfirst=True)` for a date
parser `dp`: NaN gives NaT, a failed parse gives NaT, a successful parse
gives a timestamp. -/
def liftDate (dp : String → Option Nat) : Cell → Value
  | none => .null
  | some s =>
    match dp s with
    | some t => .date t
    | none => .null

/-- The cleaning chain of the `valor_venda` / `valor_liquido` columns:
`astype(str)`, drop `R$`, drop `.`, `,` to `.`, strip. -/
def vendasClean (c : Cell) : String :=
  pyStrip (chMap ',' '.' (delAll '.' (rmRS (strCell c))))

/-- Pandas `pd.to_numeric(..., errors="coerce").fillna(0.0)` on a cleaned value
cell: a failed parse is stored as 0. -/
def vendasNumVal (c : Cell) : Value :=
  .num ((toNumeric (vendasClean c)).getD 0)

/-- Column-wise typing of one vendas data row: the first column labelled
`"Data"` is date-coerced, the first columns labelled `"valor_venda"` /
`"valor_liquido"` are numerically coerced with 0-fill, everything else
is kept raw. -/
def vendasRow (dp : String → Option Nat) (hdr : List Cell) (row : List Cell) : List Value :=
  (List.range hdr.length).map (fun j =>
    let c := row.getD j none
    if hdr.findIdx? (fun x => x == some "Data") = some j then liftDate dp c
    else if hdr.findIdx? (fun x => x == some "valor_venda") = some j then vendasNumVal c
    else if hdr.findIdx? (fun x => x == some "valor_liquido") = some j then vendasNumVal c
    else .raw c)

/-- Model of `extract_vendas_realizadas` from app.py: locate the section token by
exact normalised match in column 0, take the next row as header, scan for
the `Total`/double-`nan` stop row, and type the rows in between.  The
`sub.iloc[0]` header read raises `IndexError` when the slice is empty. -/
def extract_vendas_realizadas (dp : String → Option Nat) (g : Grid) : Except PdErr VTable :=
  if pdEmpty g then .ok .empty else
  match firstEq (col0 g) "vendas_realizadas" with
  | none => .ok .empty
  | some start =>
    match vendasEndGo g (start + 2) (nrows g) with
    | .error err => .error err
    | .ok e =>
      match sliceRows g (start + 1) e with
      | [] => .error .ilocEmpty
      | hdr :: dataRows => .ok ⟨hdr, dataRows.map (vendasRow dp hdr)⟩

/-! ### `extract_profissoes_por_canal` (app.py) -/

/-- The fixed keyword set used to score candidate header rows. -/
def channelKeywords : List String :=
  ["youtube", "facebook", "instagram", "email", "manychat", "redirect", "total"]

/-- Row `r` as the header scan sees it: every cell stringified and
accent-stripped/lowercased. -/
def profRowNorm (g : Grid) (r : Nat) : List String :=
  (rowAt g r).map (fun c => stripAccentsLower (strCell c))

/-- Number of cells of row `r` that are neither `""` nor `"nan"`. -/
def profNonEmpty (g : Grid) (r : Nat) : Nat :=
  ((profRowNorm g r).filter (fun c => !(c == "") && !(c == "nan"))).length

/-- The keyword score of row `r`: how many cells contain some channel
keyword as a substring. -/
def profScore (g : Grid) (r : Nat) : Nat :=
  ((profRowNorm g r).filter (fun c => channelKeywords.any (fun kw => pyContains c kw))).length

/-- The acceptance test of the header scan: at least 4 non-empty cells and
keyword score at least 2 (the scan breaks at the first such row). -/
def profQualifies (g : Grid) (r : Nat) : Bool :=
  decide (4 ≤ profNonEmpty g r) && decide (2 ≤ profScore g r)

/-- The lookahead window `range(start + 1, min(len(df_raw), start + 16))`. -/
def profWindow (g : Grid) (start : Nat) : List Nat :=
  List.range' (start + 1) (min (nrows g) (start + 16) - (start + 1))

/-- The header-detection loop of `extract_profissoes_por_canal`: the first
row of the window passing `profQualifies`, if any. -/
def profHeaderScan (g : Grid) (start : Nat) : Option Nat :=
  (profWindow g start).find? (fun r => profQualifies g r)

/-- The cleaning chain used on candidate numeric cells of the PROFISSOES
section: drop `%`, drop `.`, `,` to `.`. -/
def profNumClean (s : String) : String := chMap ',' '.' (delAll '.' (delAll '%' s))

/-- The first-data-row test: stripped first cell neither `""` nor `"nan"`,
and at least two of the remaining cells parse numerically. -/
def profDataRowOk (g : Grid) (i : Nat) : Bool :=
  let row := rowAt g i
  let a0 := pyStrip (strCell (row.getD 0 none))
  let nums := ((row.drop 1).filter (fun c => (toNumeric (profNumClean (strCell c))).isSome)).length
  !(a0 == "") && !(a0 == "nan") && decide (2 ≤ nums)

/-- The `data_start` scan (first data row with numbers); fuel `nrows g`. -/
def profDataGo (g : Grid) : Nat → Nat → Nat
  | i, 0 => i
  | i, fuel + 1 =>
    if i < nrows g then (if profDataRowOk g i then i else profDataGo g (i + 1) fuel) else i

/-- The end-of-section test: stripped first cell starts with
`"total geral"` (case-insensitively), or the row is entirely NaN. -/
def profEndRowStop (g : Grid) (i : Nat) : Bool :=
  let row := rowAt g i
  let first := pyStrip (strCell (row.getD 0 none))
  pyStartsWith (pyLower first) "total geral" || row.all (fun c => c.isNone)

/-- The end scan of the PROFISSOES section; fuel `nrows g`. -/
def profEndGo (g : Grid) : Nat → Nat → Nat
  | i, 0 => i
  | i, fuel + 1 =>
    if i < nrows g then (if profEndRowStop g i then i else profEndGo g (i + 1) fuel) else i

/-- The PROFISSOES result: `Profissao` and the kept quantity columns, one
`(profession, quantities)` pair per kept row. -/
structure PTable where
  cols : List String
  rows : List (String × List ℚ)
deriving DecidableEq

/-- The empty PROFISSOES table. -/
def PTable.empty : PTable := ⟨[], []⟩

/-- The post-processing of the sliced PROFISSOES block: de-duplicate the
header-row names, `fillna("")`, force the first column name to
`"Profissao"`, keep only quantity columns (name without `%`, at least half
the cells numeric, some value non-zero), coerce them with
`to_numeric(...).fillna(0)`, and drop blank-profession and
`"total geral"` rows.  Column selection by (unique) name is modelled
positionally. -/
def profBuild (sub : List (List Cell)) : PTable :=
  match sub with
  | [] => .empty
  | hdrCells :: dataCells =>
    let names0 := dedupeColumns hdrCells
    let rows0 : List (List String) := dataCells.map (List.map (fun c => c.getD ""))
    let names1 := match names0 with
      | [] => ([] : List String)
      | n0 :: restN => (if n0 = "Profissao" then n0 else "Profissao") :: restN
    let n := rows0.length
    let keepIdx := ((List.range names1.length).drop 1).filter (fun j =>
      let nameNorm := stripAccentsLower (names1.getD j "")
      if pyContains nameNorm "%" then false
      else
        let series := rows0.map (fun r => toNumeric (profNumClean (r.getD j "")))
        let cnt := (series.filter (fun o => o.isSome)).length
        decide (n ≤ 2 * cnt) && series.any (fun o => decide (o.getD 0 ≠ 0)))
    let rows1 := rows0.map (fun r =>
      (r.getD 0 "", keepIdx.map (fun j => (toNumeric (profNumClean (r.getD j ""))).getD 0)))
    let rows2 := rows1.filter (fun p =>
      !(pyStrip p.1 == "") && !pyStartsWith (pyLower p.1) "total geral")
    ⟨"Profissao" :: keepIdx.map (fun j => names1.getD j ""), rows2⟩

/-- Model of `extract_profissoes_por_canal` from app.py: locate the section by
substring match in column 0 (empty table when absent), pick the header row
by keyword scoring with fallback `start + 2`, find the first data row and
the section end, and post-process the block; blocks shorter than 2 rows
give the empty table. -/
def extract_profissoes_por_canal (g : Grid) : PTable :=
  if pdEmpty g then .empty else
  match firstContains (col0 g) "profissoes" with
  | none => .empty
  | some start =>
    let headerRow := (profHeaderScan g start).getD (start + 2)
    let dataStart := profDataGo g (headerRow + 1) (nrows g)
    let e := profEndGo g dataStart (nrows g)
    let sub := sliceRows g headerRow e
    if sub.length < 2 then .empty else profBuild sub

/-! ### `extract_kv_metrics` (app.py) -/

/-- A metric value: a parsed number, or the trimmed original string when
numeric parsing fails. -/
inductive MVal where
  /-- A parsed PT-BR number. -/
  | num (q : ℚ)
  /-- The trimmed original string fallback. -/
  | str (s : String)
deriving DecidableEq

/-- Python-dict insertion: overwrite the value in place when the key
exists, append otherwise. -/
def dictInsert {α : Type} (m : List (String × α)) (k : String) (v : α) : List (String × α) :=
  if m.any (fun p => p.1 == k) then m.map (fun p => if p.1 == k then (k, v) else p)
  else m ++ [(k, v)]

/-- Building a Python dict from a pair list, later pairs overwriting. -/
def buildDictFrom {α : Type} (m : List (String × α)) (ps : List (String × α)) :
    List (String × α) :=
  ps.foldl (fun acc p => dictInsert acc p.1 p.2) m

/-- Python `dict(ps)` with insertion order and last-wins overwriting. -/
def buildDict {α : Type} (ps : List (String × α)) : List (String × α) :=
  buildDictFrom [] ps

/-- Dict lookup. -/
def dictLookup {α : Type} (m : List (String × α)) (k : String) : Option α :=
  (m.find? (fun p => p.1 == k)).map Prod.snd

/-- Python truthiness of a cell under `or`: NaN (a float) is truthy, a
string is truthy iff nonempty. -/
def cellTruthy : Cell → Bool
  | none => true
  | some s => !(s == "")

/-- The end scan of the KV block: stop at a row whose stripped lowercased
first cell starts with `"profissoes"`, or once more than 200 rows past
`start`, or at the end of the grid; fuel `nrows g`. -/
def kvEndGo (g : Grid) (start : Nat) : Nat → Nat → Nat
  | e, 0 => e
  | e, fuel + 1 =>
    if e < nrows g then
      let a := pyLower (pyStrip (strCell (cellAt g e 0)))
      if pyStartsWith a "profissoes" then e
      else if start + 200 < e then e
      else kvEndGo g start (e + 1) fuel
    else e

/-- Dict `cols_map`: dict comprehension from stripped-lowercase column label to
original label (later duplicates overwrite). -/
def kvColsMap (hdr : List Cell) : List (String × Cell) :=
  buildDict (hdr.map (fun c => (pyLower (pyStrip (strCell c)), c)))

/-- Label `c_key`: the column labelled `campo`, with Python-`or` fallback to the
first column for a missing or falsy label. -/
def kvKeyLabel (hdr : List Cell) : Cell :=
  match dictLookup (kvColsMap hdr) "campo" with
  | some l => if cellTruthy l then l else hdr.getD 0 none
  | none => hdr.getD 0 none

/-- Label `c_val`: first of `valor atual`, `valor_atual`, `valor` present in
`cols_map`, else positionally column 2 (or 1, or 0). -/
def kvValLabel (hdr : List Cell) : Cell :=
  match dictLookup (kvColsMap hdr) "valor atual" with
  | some l => l
  | none =>
    match dictLookup (kvColsMap hdr) "valor_atual" with
    | some l => l
    | none =>
      match dictLookup (kvColsMap hdr) "valor" with
      | some l => l
      | none =>
        if 2 < hdr.length then hdr.getD 2 none
        else if 1 < hdr.length then hdr.getD 1 none
        else hdr.getD 0 none

/-- Pandas `row.get(label)`: position of the first column carrying the label
(labels are unique in the exercised grids). -/
def labelIdx (hdr : List Cell) (l : Cell) : Nat :=
  (hdr.findIdx? (fun c => c == l)).getD 0

/-- One iteration of the KV row loop: skip blank or `profissoes...` labels,
slug the label into the key, parse the value with `_to_number_pt`, fall
back to the trimmed original string. -/
def kvRowPair (hdr : List Cell) (row : List Cell) : Option (String × MVal) :=
  let keyRaw := pyStrip (strCell (row.getD (labelIdx hdr (kvKeyLabel hdr)) none))
  if keyRaw = "" ∨ pyStartsWith (pyLower keyRaw) "profissoes" then none
  else
    let valCell := row.getD (labelIdx hdr (kvValLabel hdr)) none
    some (chMap ' ' '_' (stripAccentsLower keyRaw),
      match toNumberPt valCell with
      | some q => MVal.num q
      | none => MVal.str (pyStrip (strCell valCell)))

/-- The ordered `(key, value)` contributions of the KV block of a grid:
locate the `CAMPO` header (exact match, then substring fallback), scan to
the `profissoes` row (or the 200-row cap), and process every data row of
the block. -/
def kvPairs (g : Grid) : List (String × MVal) :=
  if pdEmpty g then [] else
  match (match firstEq (col0 g) "CAMPO" with
         | some s => some s
         | none => firstContains (col0 g) "campo") with
  | none => []
  | some start =>
    let e := kvEndGo g start (start + 1) (nrows g)
    match sliceRows g start e with
    | [] => []
    | [_] => []
    | hdr :: dataRows => dataRows.filterMap (kvRowPair hdr)

/-- Model of `extract_kv_metrics` from app.py: the Python dict built from the KV
row contributions, later duplicate keys overwriting earlier ones. -/
def extract_kv_metrics (g : Grid) : List (String × MVal) :=
  buildDict (kvPairs g)

/-! ### Concrete grids used by the claims -/

/-- A date parser that always fails; boundary behaviour is independent of
the parser, and `errors="coerce"` turns every failure into NaT. -/
def dpNone : String → Option Nat := fun _ => none

/-- The spec's vendas example: token row, header, two sales, a Total row. -/
def vendasExampleGrid : Grid :=
  [[some "vendas_realizadas"],
   [some "Data", some "valor"],
   [some "01/01", some "100"],
   [some "02/01", some "200"],
   [some "Total", some "300"]]

/-- Grid `vendasExampleGrid` with a PROFISSOES section appended after the
Total row. -/
def vendasPlusProfGrid : Grid :=
  vendasExampleGrid ++
  [[some "PROFISSOES", none],
   [some "Profissao", some "youtube"],
   [some "Medico", some "3"]]

/-- A vendas section whose `valor_liquido` cell does not parse numerically. -/
def vendasBadNumGrid : Grid :=
  [[some "vendas_realizadas"],
   [some "Data", some "valor_liquido"],
   [some "x", some "abc"]]

/-- A PROFISSOES block where the first qualifying header-candidate row
(score 2) is followed by a strictly higher-scoring row (score 4). -/
def profScanGrid : Grid :=
  [[some "PROFISSOES"],
   [some "x", some "youtube", some "facebook", some "a", some "b"],
   [some "y", some "youtube", some "facebook", some "instagram", some "email"]]

/-- A KV block with a duplicated `CPL Médio` label. -/
def kvDupGrid : Grid :=
  [[some "CAMPO", some "DESCRIÇÃO", some "VALOR ATUAL"],
   [some "CPL Médio", some "x", some "10"],
   [some "CPL Médio", some "y", some "20"]]

/-! ## Supporting lemmas -/

theorem findIdx?_spec {α : Type} (p : α → Bool) (d : α) :
    ∀ (l : List α) (i j : Nat), List.findIdx? p l i = some j →
      i ≤ j ∧ j - i < l.length ∧ p (l.getD (j - i) d) = true ∧
        ∀ m, m < j - i → p (l.getD m d) = false := by
  intro l
  induction l with
  | nil => intro i j h; simp [List.findIdx?_nil] at h
  | cons x xs ih =>
    intro i j h
    rw [List.findIdx?_cons] at h
    cases hx : p x with
    | true =>
      rw [hx, if_pos rfl] at h
      injection h with h
      subst h
      exact ⟨le_refl i, by simp, by simpa using hx, fun m hm => absurd hm (by omega)⟩
    | false =>
      rw [hx, if_neg (by simp)] at h
      obtain ⟨h1, h2, h3, h4⟩ := ih (i + 1) j h
      refine ⟨by omega, by simp; omega, ?_, ?_⟩
      · have he : j - i = (j - (i + 1)) + 1 := by omega
        rw [he]; simpa using h3
      · intro m hm
        match m with
        | 0 => simpa using hx
        | m + 1 =>
          have hlt : m < j - (i + 1) := by omega
          simpa using h4 m hlt

theorem findIdx?_none {α : Type} (p : α → Bool) :
    ∀ (l : List α) (i : Nat), (∀ x ∈ l, p x = false) → List.findIdx? p l i = none := by
  intro l
  induction l with
  | nil => intro i _; simp [List.findIdx?_nil]
  | cons x xs ih =>
    intro i h
    rw [List.findIdx?_cons]
    have hx := h x (by simp)
    rw [hx, if_neg (by simp)]
    exact ih (i + 1) (fun y hy => h y (by simp [hy]))

theorem ncols_foldl_zero : ∀ (g : Grid) (m : Nat),
    g.foldl (fun m r => max m r.length) m = 0 → m = 0 ∧ ∀ r ∈ g, r = [] := by
  intro g
  induction g with
  | nil => intro m h; simpa using h
  | cons r rest ih =>
    intro m h
    obtain ⟨h1, h2⟩ := ih (max m r.length) h
    refine ⟨by omega, ?_⟩
    intro x hx
    rcases hx with _ | hx
    · exact List.length_eq_zero.mp (by omega)
    · exact h2 x (by assumption)

/-- A located section token forces a non-empty frame. -/
theorem firstEq_some_not_pdEmpty {g : Grid} {v : String} {s : Nat}
    (hv : stripAccentsLower v ≠ "nan") (h : firstEq (col0 g) v = some s) :
    pdEmpty g = false := by
  by_contra hne
  have hemp : pdEmpty g = true := by
    cases hpe : pdEmpty g
    · exact absurd hpe hne
    · rfl
  rw [pdEmpty] at hemp
  simp at hemp
  have hall : ∀ c ∈ col0 g,
      (stripAccentsLower (strCell c) == stripAccentsLower v) = false := by
    rcases hemp with hnil | hzero
    · intro c hc; subst hnil; simp [col0] at hc
    · intro c hc
      obtain ⟨r, hr, hrc⟩ := List.mem_map.mp hc
      have hre := (ncols_foldl_zero g 0 (by simpa [ncols] using hzero)).2 r hr
      subst hre
      simp at hrc
      subst hrc
      simp [strCell]
      intro hcontra
      exact hv hcontra.symm
  rw [firstEq] at h
  rw [findIdx?_none _ _ _ hall] at h
  exact Option.noConfusion h

theorem mem_trimL {l : List Char} {x : Char} (h : x ∈ trimL l) : x ∈ l := by
  unfold trimL at h
  rw [List.mem_reverse] at h
  have h1 := (List.dropWhile_sublist _).mem h
  rw [List.mem_reverse] at h1
  exact (List.dropWhile_sublist _).mem h1

theorem mem_rmRSL {x : Char} : ∀ {l : List Char}, x ∈ rmRSL l → x ∈ l := by
  intro l
  induction l using rmRSL.induct with
  | case1 => intro h; simp [rmRSL] at h
  | case2 rest ih =>
    intro h
    rw [rmRSL] at h
    have := ih h
    simp [List.mem_cons]
    tauto
  | case3 c rest h1 ih =>
    intro h
    rw [rmRSL.eq_3 c rest h1] at h
    rcases List.mem_cons.mp h with h2 | h2
    · simp [h2]
    · simp [List.mem_cons]
      right
      exact ih h2

/-- No dot survives the cleaning chain of `_to_number_pt` when the input
has no comma. -/
theorem no_dot_cleaned {s : String} (h : ',' ∉ s.data) :
    '.' ∉ (pyStrip (chMap ',' '.' (delAll '.' (delAll '%' (rmRS (pyStrip s)))))).data := by
  intro hmem
  have h1 := mem_trimL hmem
  simp only [chMap] at h1
  obtain ⟨c, hc, hcEq⟩ := List.mem_map.mp h1
  have hcP : c ∈ (delAll '.' (delAll '%' (rmRS (pyStrip s)))).data := hc
  by_cases hcc : c = ','
  · subst hcc
    simp only [delAll] at hcP
    have h2 := (List.mem_filter.mp hcP).1
    have h3 := (List.mem_filter.mp h2).1
    have h4 := mem_rmRSL h3
    exact h (mem_trimL h4)
  · rw [if_neg hcc] at hcEq
    subst hcEq
    simp only [delAll] at hcP
    have h2 := (List.mem_filter.mp hcP).2
    simp at h2

/-! ## Claims -/

/-- C1, counterexample: the spec's "at least one dimension name" predicate
holds for the header `["estado", "valor"]`, yet the loader classifies that
grid as `"blocks"` — it requires all of `estado`, `canal`, `profissao`. -/
theorem C1_counterexample :
    specLongPredicate ["estado", "valor"] ∧ modeOfHeader ["estado", "valor"] = "blocks" :=
  ⟨by decide, by decide⟩

/-- C1, amended: for every grid read with the first row as header and
column names normalised, the Mode Selector classifies as `"long"` iff the
column set contains all three of `estado`, `canal`, `profissao` and at
least one of `valor`, `vendas` (`regiao` is not consulted); in particular
the header `["estado", "canal", "profissao", "valor"]` classifies as
`"long"`. -/
theorem C1_mode_long_iff :
    (∀ hdr : List String,
      modeOfHeader hdr = "long" ↔
        ("estado" ∈ hdr.map normColName ∧ "canal" ∈ hdr.map normColName ∧
         "profissao" ∈ hdr.map normColName ∧
         ("valor" ∈ hdr.map normColName ∨ "vendas" ∈ hdr.map normColName))) ∧
    modeOfHeader ["estado", "canal", "profissao", "valor"] = "long" := by
  constructor
  · intro hdr
    by_cases h : ("estado" ∈ hdr.map normColName ∧ "canal" ∈ hdr.map normColName ∧
        "profissao" ∈ hdr.map normColName) ∧
        ("valor" ∈ hdr.map normColName ∨ "vendas" ∈ hdr.map normColName)
    · rw [modeOfHeader, if_pos h]
      simp only [true_iff]
      tauto
    · rw [modeOfHeader, if_neg h]
      constructor
      · intro hc; exact absurd hc (by decide)
      · intro hc; exact absurd (by tauto) h
  · decide

/-- C1, instance: the amended classification at the spec's example header. -/
theorem C1_mode_long_witness :
    modeOfHeader ["estado", "canal", "profissao", "valor"] = "long" :=
  C1_mode_long_iff.2

/-- C2, code bug: contrary to the never-raise policy, the vendas extractor
raises `IndexError` when the section token is the grid's last row (the
`sub.iloc[0]` header read on an empty slice), and when the scan meets a NaN
label on a one-column grid (the `df_raw.iloc[end, 1]` read). -/
theorem C2_extraction_raises :
    extract_vendas_realizadas dpNone [[some "vendas_realizadas"]] = .error .ilocEmpty ∧
    extract_vendas_realizadas dpNone [[some "vendas_realizadas"], [some "Data"], [none]] =
      .error .colOutOfRange :=
  ⟨by decide, by decide⟩

/-- C7: `_to_number_pt` strips the currency symbol and percent sign,
removes `.` and treats `,` as decimal separator (`"R$ 1.234,56"` gives
1234.56, `"12,5%"` gives 12.5), and yields `none` for empty, `"nan"`,
missing or unparsable input. -/
theorem C7_parse_number_ptbr :
    toNumberPt (some "R$ 1.234,56") = some (1234.56 : ℚ) ∧
    toNumberPt (some "") = none ∧
    toNumberPt (some "12,5%") = some (12.5 : ℚ) ∧
    toNumberPt none = none ∧
    toNumberPt (some "abc") = none ∧
    (∀ s : String, pyStrip s = "" → toNumberPt (some s) = none) ∧
    (∀ s : String, pyLower (pyStrip s) = "nan" → toNumberPt (some s) = none) := by
  refine ⟨?_, by decide, ?_, by decide, by decide, ?_, ?_⟩
  · rw [show toNumberPt (some "R$ 1.234,56") = some (mkRat 123456 100) from by decide]
    norm_num [Rat.mkRat_eq_div]
  · rw [show toNumberPt (some "12,5%") = some (mkRat 125 10) from by decide]
    norm_num [Rat.mkRat_eq_div]
  · intro s h
    rw [toNumberPt]
    simp [strCell, h]
  · intro s h
    rw [toNumberPt]
    simp [strCell, h]

/-- C7, instance: whitespace-only input yields `none`. -/
theorem C7_parse_number_ptbr_witness : toNumberPt (some " ") = none :=
  C7_parse_number_ptbr.2.2.2.2.2.1 " " (by decide)

/-- C10: `_to_number_pt` deletes every dot from the text before handing
it to `float` — `"1.5"` parses as 15 and `"9.000"` as 9000 — and for any
comma-free input the cleaned string that reaches the conversion (the
exact argument of `parseDecimal` inside `toNumberPt`) contains no dot at
all, so a dot is never interpreted as a decimal point: the only dots the
converter can ever see are the ones substituted for commas. -/
theorem C10_dot_never_decimal :
    toNumberPt (some "1.5") = some (15 : ℚ) ∧
    toNumberPt (some "9.000") = some (9000 : ℚ) ∧
    (∀ s : String, ',' ∉ s.data →
      '.' ∉ (pyStrip (chMap ',' '.' (delAll '.' (delAll '%' (rmRS (pyStrip s)))))).data) :=
  ⟨by decide, by decide, fun _ hc => no_dot_cleaned hc⟩

/-- C10, instance: the string `_to_number_pt` hands to `float` for the
comma-free input `"9.000"` contains no dot. -/
theorem C10_dot_never_decimal_witness :
    '.' ∉ (pyStrip (chMap ',' '.' (delAll '.' (delAll '%' (rmRS (pyStrip "9.000")))))).data :=
  C10_dot_never_decimal.2.2 "9.000" (by decide)

theorem digitsVal_append (l : List Char) (c : Char) :
    digitsVal (l ++ [c]) = 10 * digitsVal l + (c.toNat - 48) := by
  simp [digitsVal, List.foldl_append]

theorem digitsVal_natDigitsGo : ∀ (fuel n : Nat), n ≤ fuel →
    digitsVal (natDigitsGo fuel n) = n := by
  intro fuel
  induction fuel with
  | zero =>
    intro n hn
    interval_cases n
    rfl
  | succ fuel ih =>
    intro n hn
    by_cases hz : n = 0
    · subst hz; rfl
    · rw [natDigitsGo]
      simp only [if_neg hz]
      rw [digitsVal_append]
      have hlt := Nat.div_lt_self (Nat.pos_of_ne_zero hz) (by norm_num : 1 < 10)
      rw [ih (n / 10) (by omega)]
      have hmod : n % 10 < 10 := Nat.mod_lt _ (by norm_num)
      set m := n % 10 with hm
      have hchar : (digitChar m).toNat = 48 + m := by interval_cases m <;> rfl
      rw [hchar]
      omega

theorem natToStr_inj {a b : Nat} (h : natToStr a = natToStr b) : a = b := by
  have hdata := congrArg String.data h
  by_cases ha : a = 0 <;> by_cases hb : b = 0
  · omega
  · rw [natToStr, if_pos ha, natToStr, if_neg hb] at hdata
    have hv := congrArg digitsVal hdata
    rw [show digitsVal (String.data "0") = 0 from by decide] at hv
    rw [show (String.data ⟨natDigitsGo (b + 1) b⟩) = natDigitsGo (b + 1) b from rfl] at hv
    rw [digitsVal_natDigitsGo (b + 1) b (by omega)] at hv
    exact absurd hv.symm hb
  · rw [natToStr, if_neg ha, natToStr, if_pos hb] at hdata
    have hv := congrArg digitsVal hdata
    rw [show digitsVal (String.data "0") = 0 from by decide] at hv
    rw [show (String.data ⟨natDigitsGo (a + 1) a⟩) = natDigitsGo (a + 1) a from rfl] at hv
    rw [digitsVal_natDigitsGo (a + 1) a (by omega)] at hv
    exact absurd hv ha
  · rw [natToStr, if_neg ha, natToStr, if_neg hb] at hdata
    have hv := congrArg digitsVal hdata
    rw [show (String.data ⟨natDigitsGo (a + 1) a⟩) = natDigitsGo (a + 1) a from rfl,
        show (String.data ⟨natDigitsGo (b + 1) b⟩) = natDigitsGo (b + 1) b from rfl,
        digitsVal_natDigitsGo (a + 1) a (by omega),
        digitsVal_natDigitsGo (b + 1) b (by omega)] at hv
    exact hv

theorem suffix_cand_inj (base : String) {j k : Nat}
    (h : base ++ "_" ++ natToStr j = base ++ "_" ++ natToStr k) : j = k := by
  have hdata := congrArg String.data h
  rw [String.data_append, String.data_append] at hdata
  exact natToStr_inj (String.ext (List.append_cancel_left hdata))

theorem exists_free_suffix (base : String) (seen : List String) (k : Nat) :
    ∃ j, k ≤ j ∧ j ≤ k + seen.length ∧ (base ++ "_" ++ natToStr j) ∉ seen := by
  by_contra hcon
  push_neg at hcon
  have hmap : ∀ i ∈ Finset.range (seen.length + 1),
      (base ++ "_" ++ natToStr (k + i)) ∈ seen.toFinset := by
    intro i hi
    rw [Finset.mem_range] at hi
    exact List.mem_toFinset.mpr (hcon (k + i) (by omega) (by omega))
  have hinj : Set.InjOn (fun i => base ++ "_" ++ natToStr (k + i))
      (Finset.range (seen.length + 1)) := by
    intro i _ j _ hij
    have := suffix_cand_inj base hij
    omega
  have hcard := Finset.card_le_card_of_injOn _ hmap hinj
  rw [Finset.card_range] at hcard
  have hle := List.toFinset_card_le seen
  omega

theorem freshGo_spec (base : String) (seen : List String) :
    ∀ (fuel k : Nat), (∃ j, k ≤ j ∧ j < k + fuel ∧ (base ++ "_" ++ natToStr j) ∉ seen) →
      ∃ K, k ≤ K ∧ freshGo base seen k fuel = base ++ "_" ++ natToStr K ∧
        (base ++ "_" ++ natToStr K) ∉ seen ∧
        ∀ j, k ≤ j → j < K → (base ++ "_" ++ natToStr j) ∈ seen := by
  intro fuel
  induction fuel with
  | zero =>
    intro k hex
    obtain ⟨j, h1, h2, _⟩ := hex
    omega
  | succ fuel ih =>
    intro k hex
    by_cases hk : (base ++ "_" ++ natToStr k) ∈ seen
    · obtain ⟨j, hj1, hj2, hj3⟩ := hex
      have hjk : j ≠ k := fun he => by subst he; exact hj3 hk
      obtain ⟨K, hK1, hK2, hK3, hK4⟩ := ih (k + 1) ⟨j, by omega, by omega, hj3⟩
      refine ⟨K, by omega, ?_, hK3, ?_⟩
      · rw [freshGo]
        simp only [if_pos hk]
        exact hK2
      · intro j2 hj2a hj2b
        by_cases hj2k : j2 = k
        · subst hj2k; exact hk
        · exact hK4 j2 (by omega) hj2b
    · refine ⟨k, le_refl k, ?_, hk, fun j hj1 hj2 => absurd hj1 (by omega)⟩
      rw [freshGo]
      simp only [if_neg hk]

theorem assignName_keep {seen : List String} {c : Cell} (h : baseName c ∉ seen) :
    assignName seen c = baseName c := by
  rw [assignName]
  simp only [if_neg h]

theorem assignName_fresh {seen : List String} {c : Cell} (h : baseName c ∈ seen) :
    ∃ K, 2 ≤ K ∧ assignName seen c = baseName c ++ "_" ++ natToStr K ∧
      (baseName c ++ "_" ++ natToStr K) ∉ seen ∧
      ∀ j, 2 ≤ j → j < K → (baseName c ++ "_" ++ natToStr j) ∈ seen := by
  rw [assignName]
  simp only [if_pos h]
  obtain ⟨j, hj1, hj2, hj3⟩ := exists_free_suffix (baseName c) seen 2
  exact freshGo_spec _ _ (seen.length + 1) 2 ⟨j, hj1, by omega, hj3⟩

theorem dedupeGo_length : ∀ (cols : List Cell) (seen : List String),
    (dedupeGo seen cols).length = cols.length := by
  intro cols
  induction cols with
  | nil => intro seen; rfl
  | cons c rest ih => intro seen; simp [dedupeGo, ih]

theorem dedupeGo_getD : ∀ (cols : List Cell) (seen : List String) (i : Nat),
    i < cols.length →
    (dedupeGo seen cols).getD i "" =
      assignName (seen ++ (dedupeGo seen cols).take i) (cols.getD i none) := by
  intro cols
  induction cols with
  | nil => intro seen i h; simp at h
  | cons c rest ih =>
    intro seen i h
    match i with
    | 0 => simp [dedupeGo]
    | i + 1 =>
      have h2 : i < rest.length := by simpa using h
      simp only [dedupeGo, List.getD_cons_succ, List.take_succ_cons]
      rw [ih (seen ++ [assignName seen c]) i h2]
      congr 1
      simp [List.append_assoc]

/-- C8, counterexample: on the header `["Total", "Total", "Total_2"]` the
first (and only) occurrence of the name `"Total_2"` is *renamed* to
`"Total_2_2"`, because it collides with the generated name of the earlier
duplicate — so "the first occurrence of each name is kept unchanged" fails
as stated. -/
theorem C8_counterexample :
    dedupeColumns [some "Total", some "Total", some "Total_2"] =
      ["Total", "Total_2", "Total_2_2"] ∧
    [some "Total", some "Total", some "Total_2"].getD 2 none = some "Total_2" ∧
    some "Total_2" ∉ [some "Total", some "Total"] ∧
    "Total_2_2" ≠ "Total_2" :=
  ⟨by decide, by decide, by decide, by decide⟩

/-- C8, amended: `_dedupe_columns` trims each name (blank or `"nan"`
becomes `"col"`); a name not colliding with any previously *assigned*
(original or generated) name is kept unchanged, and a colliding one gets
the smallest numeric suffix, counting from 2, that avoids all previously
assigned names; in particular `["Estado", "Total", "Total"]` produces
`["Estado", "Total", "Total_2"]`. -/
theorem C8_dedupe_columns :
    (∀ cols : List Cell, (dedupeColumns cols).length = cols.length) ∧
    (∀ (cols : List Cell) (i : Nat), i < cols.length →
      (baseName (cols.getD i none) ∉ (dedupeColumns cols).take i →
        (dedupeColumns cols).getD i "" = baseName (cols.getD i none)) ∧
      (baseName (cols.getD i none) ∈ (dedupeColumns cols).take i →
        ∃ K, 2 ≤ K ∧
          (dedupeColumns cols).getD i "" =
            baseName (cols.getD i none) ++ "_" ++ natToStr K ∧
          (baseName (cols.getD i none) ++ "_" ++ natToStr K) ∉
            (dedupeColumns cols).take i ∧
          ∀ j, 2 ≤ j → j < K →
            (baseName (cols.getD i none) ++ "_" ++ natToStr j) ∈
              (dedupeColumns cols).take i)) ∧
    dedupeColumns [some "Estado", some "Total", some "Total"] =
      ["Estado", "Total", "Total_2"] := by
  refine ⟨fun cols => dedupeGo_length cols [], ?_, by decide⟩
  intro cols i h
  simp only [dedupeColumns]
  have hb := dedupeGo_getD cols [] i h
  rw [List.nil_append] at hb
  exact ⟨fun hmem => hb.trans (assignName_keep hmem),
         fun hmem => hb ▸ assignName_fresh hmem⟩

/-- C8, instance: the non-colliding first `"Total"` is kept unchanged. -/
theorem C8_dedupe_columns_witness :
    (dedupeColumns [some "Estado", some "Total", some "Total"]).getD 1 "" =
      baseName (some "Total") :=
  (C8_dedupe_columns.2.1 [some "Estado", some "Total", some "Total"] 1
    (by decide)).1 (by decide)

theorem dictLookup_map_ne {α : Type} {k k' : String} (hne : k' ≠ k) (v : α) :
    ∀ m : List (String × α),
      dictLookup (m.map (fun p => if p.1 == k then (k, v) else p)) k' = dictLookup m k' := by
  intro m
  induction m with
  | nil => rfl
  | cons p rest ih =>
    by_cases hpk : (p.1 == k) = true
    · have hp1 : p.1 = k := by simpa using hpk
      simp only [List.map_cons, if_pos hpk, dictLookup]
      rw [List.find?_cons_of_neg _ (by simp; exact fun he => hne he.symm),
          List.find?_cons_of_neg _ (by simp [hp1]; exact fun he => hne he.symm)]
      exact ih
    · simp only [List.map_cons, if_neg hpk, dictLookup]
      by_cases hk' : (p.1 == k') = true
      · rw [List.find?_cons_of_pos (p := fun (q : String × α) => q.1 == k') _ hk',
            List.find?_cons_of_pos (p := fun (q : String × α) => q.1 == k') _ hk']
      · rw [List.find?_cons_of_neg (p := fun (q : String × α) => q.1 == k') _ hk',
            List.find?_cons_of_neg (p := fun (q : String × α) => q.1 == k') _ hk']
        exact ih

theorem dictLookup_map_eq {α : Type} (k : String) (v : α) :
    ∀ m : List (String × α), (∃ p ∈ m, (p.1 == k) = true) →
      dictLookup (m.map (fun p => if p.1 == k then (k, v) else p)) k = some v := by
  intro m
  induction m with
  | nil => intro h; simp at h
  | cons p rest ih =>
    intro h
    by_cases hpk : (p.1 == k) = true
    · simp only [List.map_cons, if_pos hpk, dictLookup]
      rw [List.find?_cons_of_pos (p := fun (q : String × α) => q.1 == k) _ (by simp)]
      rfl
    · simp only [List.map_cons, if_neg hpk, dictLookup]
      rw [List.find?_cons_of_neg (p := fun (q : String × α) => q.1 == k) _ hpk]
      obtain ⟨p0, hp0, hp0k⟩ := h
      rcases List.mem_cons.mp hp0 with he | hrest
      · subst he; exact absurd hp0k hpk
      · exact ih ⟨p0, hrest, hp0k⟩

theorem dictLookup_dictInsert {α : Type} (k k' : String) (v : α) (m : List (String × α)) :
    dictLookup (dictInsert m k v) k' = if k' = k then some v else dictLookup m k' := by
  rw [dictInsert]
  split
  · next hany =>
    rw [List.any_eq_true] at hany
    by_cases hk : k' = k
    · subst hk
      rw [if_pos rfl]
      exact dictLookup_map_eq k' v m hany
    · rw [if_neg hk]
      exact dictLookup_map_ne hk v m
  · next hany =>
    simp only [dictLookup, List.find?_append]
    by_cases hk : k' = k
    · subst hk
      have hnone : m.find? (fun p => p.1 == k') = none := by
        rw [List.find?_eq_none]
        intro p hp hpk
        exact hany (List.any_eq_true.mpr ⟨p, hp, hpk⟩)
      rw [if_pos rfl, hnone]
      simp [List.find?_cons_of_pos _ (by simp : (((k', v) : String × α).1 == k') = true)]
    · rw [if_neg hk]
      have htail : List.find? (fun p => p.1 == k') [(k, v)] = none := by
        rw [List.find?_eq_none]
        intro p hp hpk
        simp at hp
        subst hp
        simp at hpk
        exact hk hpk.symm
      rw [htail]
      cases m.find? (fun p => p.1 == k') <;> rfl

theorem dictInsert_keys {α : Type} {m : List (String × α)} {k : String} {v : α}
    (h : ((m.map Prod.fst).Nodup)) : ((dictInsert m k v).map Prod.fst).Nodup := by
  rw [dictInsert]
  split
  · next hany =>
    have hkeys : (m.map (fun p => if p.1 == k then (k, v) else p)).map Prod.fst =
        m.map Prod.fst := by
      rw [List.map_map]
      apply List.map_congr_left
      intro p _
      by_cases hpk : (p.1 == k) = true
      · have he : p.1 = k := by simpa using hpk
        simp [hpk, he]
      · have hne : p.1 ≠ k := by simpa using hpk
        simp [hpk, hne]
    rw [hkeys]
    exact h
  · next hany =>
    rw [List.map_append, List.nodup_append]
    refine ⟨h, by simp, ?_⟩
    intro x hx hx2
    simp at hx2
    subst hx2
    obtain ⟨p, hp, hpk⟩ := List.mem_map.mp hx
    exact hany (List.any_eq_true.mpr ⟨p, hp, by simp [hpk]⟩)

theorem buildDictFrom_keys {α : Type} : ∀ (ps m : List (String × α)),
    ((m.map Prod.fst).Nodup) → ((buildDictFrom m ps).map Prod.fst).Nodup := by
  intro ps
  induction ps with
  | nil => intro m h; exact h
  | cons p rest ih =>
    intro m h
    rw [buildDictFrom, List.foldl_cons]
    exact ih (dictInsert m p.1 p.2) (dictInsert_keys h)

theorem dictLookup_buildDictFrom {α : Type} (key : String) : ∀ (ps m : List (String × α)),
    dictLookup (buildDictFrom m ps) key =
      match ((ps.filter (fun p => p.1 == key)).getLast?).map Prod.snd with
      | some w => some w
      | none => dictLookup m key := by
  intro ps
  induction ps with
  | nil => intro m; rfl
  | cons p rest ih =>
    intro m
    rw [buildDictFrom, List.foldl_cons,
        show rest.foldl (fun acc q => dictInsert acc q.1 q.2) (dictInsert m p.1 p.2) =
          buildDictFrom (dictInsert m p.1 p.2) rest from rfl,
        ih (dictInsert m p.1 p.2), List.filter_cons]
    by_cases hpk : (p.1 == key) = true
    · rw [if_pos hpk]
      cases hfr : (rest.filter (fun q => q.1 == key)).getLast? with
      | some q => rw [List.getLast?_cons, hfr]; rfl
      | none =>
        rw [List.getLast?_cons, hfr]
        simp only [Option.getD, Option.map_some']
        rw [dictLookup_dictInsert]
        have hkp : key = p.1 := by
          have hb := hpk
          simp at hb
          exact hb.symm
        rw [if_pos hkp]
        rfl
    · rw [if_neg hpk]
      cases hfr : (rest.filter (fun q => q.1 == key)).getLast? with
      | some q => rfl
      | none =>
        simp only [Option.map_none']
        rw [dictLookup_dictInsert]
        have hne : key ≠ p.1 := by
          intro he
          exact hpk (by simp [he])
        rw [if_neg hne]

/-- C9: in the MetricsMap built by the KV extractor the keys are unique,
and the value stored under each key is the one contributed by the last
row of the KV block carrying that slugged label (last occurrence wins);
in particular, of two rows labelled `"CPL Médio"` with values 10 and 20,
the map holds 20. -/
theorem C9_kv_last_wins :
    (∀ g : Grid, ((extract_kv_metrics g).map Prod.fst).Nodup) ∧
    (∀ (g : Grid) (key : String),
      dictLookup (extract_kv_metrics g) key =
        (((kvPairs g).filter (fun p => p.1 == key)).getLast?).map Prod.snd) ∧
    extract_kv_metrics kvDupGrid = [("cpl_medio", MVal.num 20)] := by
  refine ⟨?_, ?_, by decide⟩
  · intro g
    exact buildDictFrom_keys (kvPairs g) [] (by simp)
  · intro g key
    rw [extract_kv_metrics, buildDict, dictLookup_buildDictFrom]
    cases ((kvPairs g).filter (fun p => p.1 == key)).getLast? with
    | some q => rfl
    | none => rfl

theorem find?_range'_spec (p : Nat → Bool) : ∀ (n s r : Nat),
    (List.range' s n).find? p = some r →
    s ≤ r ∧ r < s + n ∧ p r = true ∧ ∀ j, s ≤ j → j < r → p j = false := by
  intro n
  induction n with
  | zero => intro s r h; simp at h
  | succ n ih =>
    intro s r h
    rw [List.range'_succ] at h
    by_cases hs : p s = true
    · rw [List.find?_cons_of_pos _ hs] at h
      injection h with h
      subst h
      exact ⟨le_refl _, by omega, hs, fun j h1 h2 => absurd h1 (by omega)⟩
    · rw [List.find?_cons_of_neg _ hs] at h
      obtain ⟨h1, h2, h3, h4⟩ := ih (s + 1) r h
      refine ⟨by omega, by omega, h3, ?_⟩
      intro j hj1 hj2
      by_cases hjs : j = s
      · subst hjs; simpa using hs
      · exact h4 j (by omega) hj2

/-- C4, counterexample: the PROFISSOES section of `profScanGrid` starts at
row 0 and the header scan selects row 1 (keyword score 2), although row 2
lies in the window, meets the minimum non-empty count and scores strictly
higher — the selected row is not a highest-scoring row. -/
theorem C4_counterexample :
    firstContains (col0 profScanGrid) "profissoes" = some 0 ∧
    profHeaderScan profScanGrid 0 = some 1 ∧
    2 ∈ profWindow profScanGrid 0 ∧
    4 ≤ profNonEmpty profScanGrid 2 ∧
    profScore profScanGrid 1 < profScore profScanGrid 2 :=
  ⟨by decide, by decide, by decide, by decide, by decide⟩

/-- C4, amended: whenever the header scan selects a row inside its 15-row
lookahead window, the selected row is the EARLIEST row of the window with
at least 4 non-empty cells and keyword score at least 2; every earlier
window row fails one of the two thresholds (a first-acceptable rule, not
an argmax — a later window row may score strictly higher). -/
theorem C4_header_scan_earliest (g : Grid) (start r : Nat)
    (h : profHeaderScan g start = some r) :
    start + 1 ≤ r ∧ r < min (nrows g) (start + 16) ∧
    profQualifies g r = true ∧
    ∀ j, start + 1 ≤ j → j < r → profQualifies g j = false := by
  rw [profHeaderScan, profWindow] at h
  obtain ⟨h1, h2, h3, h4⟩ := find?_range'_spec (fun i => profQualifies g i) _ _ _ h
  exact ⟨h1, by omega, h3, h4⟩

/-- C4, instance: the amended property at the counterexample grid. -/
theorem C4_header_scan_earliest_witness :
    0 + 1 ≤ 1 ∧ 1 < min (nrows profScanGrid) (0 + 16) ∧
    profQualifies profScanGrid 1 = true := by
  have h := C4_header_scan_earliest profScanGrid 0 1 (by decide)
  exact ⟨h.1, h.2.1, h.2.2.1⟩

/-- C6: when a section token is absent from the first column, the
extractor of that section returns its empty result (PROFISSOES by
substring match, vendas by exact match, the KV block by both lookups),
and other sections are unaffected: appending a PROFISSOES block to the
vendas example grid leaves the vendas extraction bit-for-bit unchanged,
while the original grid yields an empty PROFISSOES table. -/
theorem C6_missing_section :
    (∀ g : Grid, firstContains (col0 g) "profissoes" = none →
      extract_profissoes_por_canal g = PTable.empty) ∧
    (∀ (dp : String → Option Nat) (g : Grid),
      firstEq (col0 g) "vendas_realizadas" = none →
      extract_vendas_realizadas dp g = .ok VTable.empty) ∧
    (∀ g : Grid, firstEq (col0 g) "CAMPO" = none →
      firstContains (col0 g) "campo" = none →
      extract_kv_metrics g = []) ∧
    extract_profissoes_por_canal vendasExampleGrid = PTable.empty ∧
    extract_vendas_realizadas dpNone vendasPlusProfGrid =
      extract_vendas_realizadas dpNone vendasExampleGrid := by
  refine ⟨?_, ?_, ?_, by decide, by decide⟩
  · intro g h
    by_cases hp : pdEmpty g <;> simp [extract_profissoes_por_canal, h, hp]
  · intro dp g h
    by_cases hp : pdEmpty g <;> simp [extract_vendas_realizadas, h, hp]
  · intro g h1 h2
    by_cases hp : pdEmpty g <;>
      simp [extract_kv_metrics, kvPairs, buildDict, buildDictFrom, h1, h2, hp]

/-- C6, instance: a grid without the vendas token yields the empty table
without an error. -/
theorem C6_missing_section_witness :
    extract_vendas_realizadas dpNone [[some "x"]] = .ok VTable.empty :=
  C6_missing_section.2.1 dpNone [[some "x"]] (by decide)

/-- C5, counterexample: the `valor_liquido` cell `"abc"` of
`vendasBadNumGrid` fails numeric parsing, yet the value stored in the
extracted table is the number 0 — neither null nor the original string. -/
theorem C5_counterexample :
    toNumeric (vendasClean (some "abc")) = none ∧
    extract_vendas_realizadas dpNone vendasBadNumGrid =
      .ok ⟨[some "Data", some "valor_liquido"], [[Value.null, Value.num 0]]⟩ ∧
    Value.num 0 ≠ Value.null ∧ Value.num 0 ≠ Value.raw (some "abc") :=
  ⟨by decide, by decide, by decide, by decide⟩

/-- C5, amended: cell coercion never raises, and a failed parse is stored
as null (date columns, for any date parser) or as the trimmed original
string (KV metric values) — except in the designated numeric columns of
the section extractors (`valor_venda`/`valor_liquido`, and the PROFISSOES
quantity columns), whose `.fillna(0)` stores the substitute value 0. -/
theorem C5_coercion_fallback :
    (∀ c : Cell, toNumeric (vendasClean c) = none → vendasNumVal c = Value.num 0) ∧
    (∀ (dp : String → Option Nat) (s : String), dp s = none →
      liftDate dp (some s) = Value.null) ∧
    (∀ dp : String → Option Nat, liftDate dp none = Value.null) ∧
    (∀ (hdr row : List Cell) (key : String) (mv : MVal),
      kvRowPair hdr row = some (key, mv) →
      toNumberPt (row.getD (labelIdx hdr (kvValLabel hdr)) none) = none →
      mv = MVal.str (pyStrip (strCell (row.getD (labelIdx hdr (kvValLabel hdr)) none)))) := by
  refine ⟨?_, ?_, fun dp => rfl, ?_⟩
  · intro c h
    rw [vendasNumVal, h]
    rfl
  · intro dp s h
    rw [liftDate, h]
  · intro hdr row key mv hpair hparse
    rw [kvRowPair] at hpair
    split at hpair
    · exact Option.noConfusion hpair
    · simp only [hparse] at hpair
      injection hpair with hpair
      rw [Prod.ext_iff] at hpair
      exact hpair.2.symm

/-- C5, instance: the amended fallback at concrete failed parses. -/
theorem C5_coercion_fallback_witness :
    vendasNumVal (some "xyz") = Value.num 0 ∧ liftDate dpNone (some "xyz") = Value.null :=
  ⟨C5_coercion_fallback.1 (some "xyz") (by decide),
   C5_coercion_fallback.2.1 dpNone "xyz" rfl⟩

theorem vendasEndGo_spec (g : Grid) : ∀ (fuel e e' : Nat),
    nrows g ≤ e + fuel → vendasEndGo g e fuel = .ok e' →
    e ≤ e' ∧ (e ≤ nrows g → e' ≤ nrows g) ∧
    (∀ j, e ≤ j → j < e' → vendasStop g j = .ok false) ∧
    (e' < nrows g → vendasStop g e' = .ok true) := by
  intro fuel
  induction fuel with
  | zero =>
    intro e e' hle h
    rw [vendasEndGo] at h
    injection h with h
    subst h
    exact ⟨le_refl _, fun h2 => h2, fun j h1 h2 => absurd h1 (by omega),
           fun hlt => absurd hlt (by omega)⟩
  | succ fuel ih =>
    intro e e' hle h
    rw [vendasEndGo] at h
    by_cases he : e < nrows g
    · rw [if_pos he] at h
      cases hs : vendasStop g e with
      | error err =>
        rw [hs] at h
        exact Except.noConfusion h
      | ok b =>
        rw [hs] at h
        cases b with
        | true =>
          injection h with h
          subst h
          exact ⟨le_refl _, fun _ => by omega, fun j h1 h2 => absurd h1 (by omega),
                 fun _ => hs⟩
        | false =>
          obtain ⟨h1, h2, h3, h4⟩ := ih (e + 1) e' (by omega) h
          refine ⟨by omega, fun _ => h2 (by omega), ?_, h4⟩
          intro j hj1 hj2
          by_cases hje : j = e
          · subst hje; exact hs
          · exact h3 j (by omega) hj2
    · rw [if_neg he] at h
      injection h with h
      subst h
      exact ⟨le_refl _, fun h2 => h2, fun j h1 h2 => absurd h1 (by omega),
             fun hlt => absurd hlt he⟩

theorem sliceRows_length (g : Grid) (a b : Nat) :
    (sliceRows g a b).length = min (b - a) (nrows g - a) := by
  simp [sliceRows, nrows]

theorem sliceRows_cons (g : Grid) (a b : Nat) (ha : a < nrows g) (hab : a + 1 ≤ b) :
    sliceRows g a b = rowAt g a :: sliceRows g (a + 1) b := by
  have ha' : a < g.length := ha
  rw [sliceRows, List.drop_eq_getElem_cons ha',
      show b - a = (b - (a + 1)) + 1 from by omega, List.take_succ_cons, List.map_cons]
  rw [sliceRows, rowAt, List.getD_eq_getElem g [] ha']

/-- C3: whenever the vendas extraction succeeds, the data rows of the
extracted table are exactly the grid rows strictly after the header row
(`token row + 1`) and strictly before the first stop row (label starting
with `"total"` case-insensitively, or label and adjacent cell both NaN),
or the grid end; in particular the example grid yields exactly 2 data
rows and the `"Total"` row is excluded. -/
theorem C3_vendas_boundary :
    (∀ (dp : String → Option Nat) (g : Grid) (s : Nat) (t : VTable),
      firstEq (col0 g) "vendas_realizadas" = some s →
      extract_vendas_realizadas dp g = .ok t →
      ∃ e, s + 2 ≤ e ∧ e ≤ nrows g ∧
        t.rows = (sliceRows g (s + 2) e).map (vendasRow dp (rowAt g (s + 1))) ∧
        t.rows.length = e - (s + 2) ∧
        (∀ j, s + 2 ≤ j → j < e → vendasStop g j = .ok false) ∧
        (e < nrows g → vendasStop g e = .ok true)) ∧
    extract_vendas_realizadas dpNone vendasExampleGrid =
      .ok ⟨[some "Data", some "valor"],
           [[Value.null, Value.raw (some "100")], [Value.null, Value.raw (some "200")]]⟩ := by
  refine ⟨?_, by decide⟩
  intro dp g s t h1 h2
  have hne := firstEq_some_not_pdEmpty (v := "vendas_realizadas") (by decide) h1
  rw [extract_vendas_realizadas] at h2
  simp only [hne, Bool.false_eq_true, if_false, h1] at h2
  split at h2
  · exact Except.noConfusion h2
  · next e hscan =>
    obtain ⟨hA, hB, hC, hD⟩ := vendasEndGo_spec g (nrows g) (s + 2) e (by omega) hscan
    split at h2
    · exact Except.noConfusion h2
    · next hdr dataRows hslice =>
      injection h2 with h2
      have hlen := congrArg List.length hslice
      rw [sliceRows_length] at hlen
      simp only [List.length_cons] at hlen
      have hbound : s + 2 ≤ e ∧ s + 2 ≤ nrows g := by
        constructor <;> omega
      have hcons := sliceRows_cons g (s + 1) e (by omega) (by omega)
      rw [hslice] at hcons
      injection hcons with hv1 hv2
      refine ⟨e, hbound.1, hB (by omega), ?_, ?_, hC, hD⟩
      · rw [← h2, ← hv1, hv2]
      · rw [← h2]
        simp only [List.length_map]
        rw [hv2, sliceRows_length]
        omega

/-- C3, instance: the boundary property applied to the example grid. -/
theorem C3_vendas_boundary_witness :
    ∃ e, 0 + 2 ≤ e ∧ e ≤ nrows vendasExampleGrid ∧
      (⟨[some "Data", some "valor"],
        [[Value.null, Value.raw (some "100")],
         [Value.null, Value.raw (some "200")]]⟩ : VTable).rows =
        (sliceRows vendasExampleGrid (0 + 2) e).map
          (vendasRow dpNone (rowAt vendasExampleGrid (0 + 1))) ∧
      (⟨[some "Data", some "valor"],
        [[Value.null, Value.raw (some "100")],
         [Value.null, Value.raw (some "200")]]⟩ : VTable).rows.length = e - (0 + 2) ∧
      (∀ j, 0 + 2 ≤ j → j < e → vendasStop vendasExampleGrid j = .ok false) ∧
      (e < nrows vendasExampleGrid → vendasStop vendasExampleGrid e = .ok true) :=
  C3_vendas_boundary.1 dpNone vendasExampleGrid 0
    ⟨[some "Data", some "valor"],
     [[Value.null, Value.raw (some "100")], [Value.null, Value.raw (some "200")]]⟩
    (by decide) (by decide)

end Dash
